import Mathlib

/-!
Verification of the market-bots repository: a shallow embedding in Lean 4 of
the message codec (src/messages.py, src/enums.py), the position and P&L
ledger (src/position.py) and the exchange client's order-tracking state
(src/exchange_client.py), with theorems settling the specification's claims
about them.

Modelling conventions:
- JSON values are modelled by the inductive type Json below; a Python dict is
  an association list in insertion order with unique keys.  The string layer
  of json.dumps and json.loads is skipped: to_json produces a Json value (the
  wire form) and from_json consumes one.
- Python ints are Int.  Prices and P&L amounts, which the source manipulates
  as Python floats, are modelled as exact rationals (the claims state exact
  arithmetic identities, and every concrete instance below is exact).
- A fallible Python call (KeyError, ValueError, TypeError, a missing return
  value serialized as null) is an Option, with none for the raised exception.
- The exchange client's socket is modelled by recording each sent envelope;
  its listener thread and callbacks are outside the state the claims concern.
-/

/-- JSON values as decoded by the json module; an object keeps its fields as
an association list in insertion order. -/
inductive Json where
  | null : Json
  | bool (b : Bool) : Json
  | int (n : Int) : Json
  | str (s : String) : Json
  | arr (elems : List Json) : Json
  | obj (fields : List (String × Json)) : Json

/-- Lookup of the first binding of a key in an association list (a Python
dict holds each key once, so the first binding is the binding). -/
def dictGet {α β : Type} [DecidableEq α] : List (α × β) → α → Option β
  | [], _ => none
  | e :: rest, k => if e.1 = k then some e.2 else dictGet rest k

/-- Assignment d[k] = v on a Python dict: replace the value in place when the
key is present, append the binding at the end otherwise. -/
def dictSet {α β : Type} [DecidableEq α] : List (α × β) → α → β → List (α × β)
  | [], k, v => [(k, v)]
  | e :: rest, k, v => if e.1 = k then (k, v) :: rest else e :: dictSet rest k v

/-- Removal d.pop(k, None) on a Python dict: drop the binding of k when
present, leave the dict unchanged otherwise. -/
def dictPop {α β : Type} [DecidableEq α] : List (α × β) → α → List (α × β)
  | [], _ => []
  | e :: rest, k => if e.1 = k then rest else e :: dictPop rest k

/-- Reading data.get(k, d) as an integer: the claims only concern fields
carrying integers, so any other present value is treated as absent. -/
def jsonIntOr (data : List (String × Json)) (k : String) (d : Int) : Int :=
  match dictGet data k with
  | some (Json.int n) => n
  | _ => d

/-- Reading data.get(k, d) as a string, as jsonIntOr does for integers. -/
def jsonStrOr (data : List (String × Json)) (k : String) (d : String) : String :=
  match dictGet data k with
  | some (Json.str s) => s
  | _ => d

/-- Reading data.get(k, d) as a boolean, as jsonIntOr does for integers. -/
def jsonBoolOr (data : List (String × Json)) (k : String) (d : Bool) : Bool :=
  match dictGet data k with
  | some (Json.bool b) => b
  | _ => d

/-- Side of an order (src/enums.py, class Side). -/
inductive Side where
  | BUY : Side
  | SELL : Side
deriving DecidableEq, Repr

/-- Side.as_string from src/enums.py. -/
def Side.as_string : Side → String
  | Side.BUY => "B"
  | Side.SELL => "S"

/-- Side.parse from src/enums.py: case-insensitive codes, ValueError (none)
on anything else. -/
def Side.parse (code : String) : Option Side :=
  let u := code.toUpper
  if u = "B" ∨ u = "BUY" ∨ u = "BID" then some Side.BUY
  else if u = "S" ∨ u = "SELL" ∨ u = "ASK" then some Side.SELL
  else none

/-- Construction Side(value) from an integer: the IntEnum lookup raises
(none) when the value is not a member. -/
def Side.ofInt (n : Int) : Option Side :=
  if n = 1 then some Side.BUY else if n = 2 then some Side.SELL else none

/-- Order type (src/enums.py, class OrdType). -/
inductive OrdType where
  | MARKET : OrdType
  | LIMIT : OrdType
deriving DecidableEq, Repr

/-- OrdType.as_string from src/enums.py. -/
def OrdType.as_string : OrdType → String
  | OrdType.MARKET => "MKT"
  | OrdType.LIMIT => "LMT"

/-- Time in force (src/enums.py, class TimeInForce). -/
inductive TimeInForce where
  | DAY : TimeInForce
  | IOC : TimeInForce
deriving DecidableEq, Repr

/-- TimeInForce.as_string from src/enums.py. -/
def TimeInForce.as_string : TimeInForce → String
  | TimeInForce.DAY => "DAY"
  | TimeInForce.IOC => "IOC"

/-- Message type identifier (src/enums.py, class MsgType). -/
inductive MsgType where
  | NEW_ORDER : MsgType
  | CANCEL : MsgType
  | ACK : MsgType
  | REJECT : MsgType
  | FILL : MsgType
  | HEARTBEAT : MsgType
deriving DecidableEq, Repr

/-- Integer value of each MsgType member (src/enums.py). -/
def MsgType.toInt : MsgType → Int
  | MsgType.NEW_ORDER => 1
  | MsgType.CANCEL => 2
  | MsgType.ACK => 100
  | MsgType.REJECT => 101
  | MsgType.FILL => 102
  | MsgType.HEARTBEAT => 900

/-- Construction MsgType(value): the IntEnum lookup raises ValueError (none)
when the integer is not one of the six members. -/
def MsgType.ofInt (n : Int) : Option MsgType :=
  if n = 1 then some MsgType.NEW_ORDER
  else if n = 2 then some MsgType.CANCEL
  else if n = 100 then some MsgType.ACK
  else if n = 101 then some MsgType.REJECT
  else if n = 102 then some MsgType.FILL
  else if n = 900 then some MsgType.HEARTBEAT
  else none

/-- Message header common to all messages (src/messages.py, MessageHeader).
The source declares the dataclass fields version=1, type (no default),
seq=0, client_id=0. -/
structure MessageHeader where
  version : Int := 1
  type : MsgType
  seq : Int := 0
  client_id : Int := 0
deriving DecidableEq, Repr

/-- MessageHeader.to_dict from src/messages.py. -/
def MessageHeader.to_dict (h : MessageHeader) : List (String × Json) :=
  [("version", Json.int h.version),
   ("type", Json.int h.type.toInt),
   ("seq", Json.int h.seq),
   ("client_id", Json.int h.client_id)]

/-- MessageHeader.from_dict from src/messages.py: data["type"] raises
KeyError when absent, MsgType(...) raises ValueError when the value is not a
member; version, seq and client_id fall back to their defaults via get. -/
def MessageHeader.from_dict (data : List (String × Json)) : Option MessageHeader :=
  match dictGet data "type" with
  | some (Json.int n) =>
    match MsgType.ofInt n with
    | some mt =>
      some { version := jsonIntOr data "version" 1,
             type := mt,
             seq := jsonIntOr data "seq" 0,
             client_id := jsonIntOr data "client_id" 0 }
    | none => none
  | some _ => none
  | none => none

/-- Request to place a new order (src/messages.py, NewOrderRequest). -/
structure NewOrderRequest where
  client_order_id : Int
  symbol : String
  side : Side
  ord_type : OrdType
  qty : Int
  limit_price : Int := 0
  tif : TimeInForce := TimeInForce.DAY
deriving DecidableEq, Repr

/-- NewOrderRequest.to_dict from src/messages.py: the source builds a result
dict but has no return statement, so every call returns None, which the JSON
layer serializes as null. -/
def NewOrderRequest.to_dict (_ : NewOrderRequest) : Json := Json.null

/-- Request to cancel an existing order (src/messages.py, CancelRequest). -/
structure CancelRequest where
  symbol : String
  order_id : Int := 0
  client_order_id : Int := 0
deriving DecidableEq, Repr

/-- CancelRequest.to_dict from src/messages.py: each field is emitted only
when truthy (nonzero id, nonempty symbol). -/
def CancelRequest.to_dict (c : CancelRequest) : Json :=
  Json.obj
    ((if c.order_id ≠ 0 then [("order_id", Json.int c.order_id)] else []) ++
     (if c.client_order_id ≠ 0 then [("client_order_id", Json.int c.client_order_id)] else []) ++
     (if c.symbol ≠ "" then [("symbol", Json.str c.symbol)] else []))

/-- Rejection details (src/messages.py, RejectInfo). -/
structure RejectInfo where
  reason : String := ""
  code : Int := 0
deriving DecidableEq, Repr

/-- RejectInfo.from_dict from src/messages.py (the None branch is folded
into Reject.from_dict below, which never passes None here). -/
def RejectInfo.from_dict (data : List (String × Json)) : RejectInfo :=
  { reason := jsonStrOr data "reason" "", code := jsonIntOr data "code" 0 }

/-- Order acknowledgment (src/messages.py, Ack). -/
structure Ack where
  client_order_id : Int := 0
  order_id : Int := 0
  symbol : String := ""
deriving DecidableEq, Repr

/-- Ack.from_dict from src/messages.py: every field falls back to its
default via get. -/
def Ack.from_dict (data : List (String × Json)) : Ack :=
  { client_order_id := jsonIntOr data "client_order_id" 0,
    order_id := jsonIntOr data "order_id" 0,
    symbol := jsonStrOr data "symbol" "" }

/-- Order rejection (src/messages.py, Reject). -/
structure Reject where
  client_order_id : Int := 0
  symbol : String := ""
  info : RejectInfo := {}
deriving DecidableEq, Repr

/-- Reject.from_dict from src/messages.py: info is parsed only when the
field holds a truthy value (a nonempty dict); otherwise RejectInfo(). -/
def Reject.from_dict (data : List (String × Json)) : Reject :=
  { client_order_id := jsonIntOr data "client_order_id" 0,
    symbol := jsonStrOr data "symbol" "",
    info := match dictGet data "info" with
            | some (Json.obj (f :: fs)) => RejectInfo.from_dict (f :: fs)
            | _ => {} }

/-- Order fill notification (src/messages.py, Fill). -/
structure Fill where
  order_id : Int := 0
  symbol : String := ""
  side : Side := Side.BUY
  fill_qty : Int := 0
  fill_price : Int := 0
  complete : Bool := false
deriving DecidableEq, Repr

/-- Fill.from_dict from src/messages.py: side may arrive as a string code
(parsed case-insensitively) or an integer enum value; either parse raises
(none) on an invalid value. -/
def Fill.from_dict (data : List (String × Json)) : Option Fill :=
  let side_value := (dictGet data "side").getD (Json.str "B")
  let side? := match side_value with
               | Json.str s => Side.parse s
               | Json.int n => Side.ofInt n
               | _ => none
  match side? with
  | none => none
  | some side =>
    some { order_id := jsonIntOr data "order_id" 0,
           symbol := jsonStrOr data "symbol" "",
           side := side,
           fill_qty := jsonIntOr data "fill_qty" 0,
           fill_price := jsonIntOr data "fill_price" 0,
           complete := jsonBoolOr data "complete" false }

/-- Message body of an envelope (src/messages.py, MessageBody): one of the
five dataclasses, or a raw JSON value kept as-is for unknown types. -/
inductive Body where
  | newOrder (r : NewOrderRequest) : Body
  | cancel (c : CancelRequest) : Body
  | ack (a : Ack) : Body
  | reject (r : Reject) : Body
  | fill (f : Fill) : Body
  | raw (j : Json) : Body

/-- Complete message envelope (src/messages.py, Envelope). -/
structure Envelope where
  header : MessageHeader
  body : Body

/-- Serialization of the body inside Envelope.to_json: bodies with a to_dict
method use it (NewOrderRequest returns None, serialized as null); Ack,
Reject and Fill have no to_dict, so json.dumps receives the dataclass object
and raises TypeError (none); a raw value is serialized as-is. -/
def Body.toJson : Body → Option Json
  | Body.newOrder r => some r.to_dict
  | Body.cancel c => some c.to_dict
  | Body.ack _ => none
  | Body.reject _ => none
  | Body.fill _ => none
  | Body.raw j => some j

/-- Envelope.to_json from src/messages.py. -/
def Envelope.to_json (e : Envelope) : Option Json :=
  (Body.toJson e.body).map (fun b => Json.obj [("header", Json.obj e.header.to_dict), ("body", b)])

/-- Envelope.from_json from src/messages.py: reads data["header"] and
data["body"] (KeyError when absent), parses the header, then parses the body
for ACK, REJECT and FILL and keeps any other type's body as the raw value.
Parsing Ack, Reject or Fill from a non-dict body raises (none). -/
def Envelope.from_json (j : Json) : Option Envelope :=
  match j with
  | Json.obj data =>
    match dictGet data "header" with
    | some (Json.obj hdrFields) =>
      match MessageHeader.from_dict hdrFields with
      | some header =>
        match dictGet data "body" with
        | some body_data =>
          match header.type with
          | MsgType.ACK =>
            match body_data with
            | Json.obj bf => some { header := header, body := Body.ack (Ack.from_dict bf) }
            | _ => none
          | MsgType.REJECT =>
            match body_data with
            | Json.obj bf => some { header := header, body := Body.reject (Reject.from_dict bf) }
            | _ => none
          | MsgType.FILL =>
            match body_data with
            | Json.obj bf =>
              match Fill.from_dict bf with
              | some f => some { header := header, body := Body.fill f }
              | none => none
            | _ => none
          | _ => some { header := header, body := Body.raw body_data }
        | none => none
      | none => none
    | some _ => none
    | none => none
  | _ => none

/-- create_new_order from src/messages.py. -/
def create_new_order (client_id client_order_id : Int) (symbol : String) (side : Side)
    (qty : Int) (price : Int := 0) (ord_type : OrdType := OrdType.LIMIT)
    (tif : TimeInForce := TimeInForce.DAY) (seq : Int := 0) : Envelope :=
  { header := { type := MsgType.NEW_ORDER, seq := seq, client_id := client_id },
    body := Body.newOrder
      { client_order_id := client_order_id, symbol := symbol, side := side,
        ord_type := ord_type, qty := qty, limit_price := price, tif := tif } }

/-- create_cancel from src/messages.py. -/
def create_cancel (client_id : Int) (symbol : String) (order_id : Int := 0)
    (client_order_id : Int := 0) (seq : Int := 0) : Envelope :=
  { header := { type := MsgType.CANCEL, seq := seq, client_id := client_id },
    body := Body.cancel
      { symbol := symbol, order_id := order_id, client_order_id := client_order_id } }

/-- Holdings for a single symbol (src/position.py, Position).  Quantities
are Python ints; avg_cost and realized_pnl, floats in the source, are
modelled as exact rationals. -/
structure Position where
  symbol : String
  quantity : Int := 0
  avg_cost : ℚ := 0
  realized_pnl : ℚ := 0
deriving DecidableEq, Repr

/-- Signed quantity of a fill, as computed at the top of Position.update. -/
def signedQty (side : Side) (fill_qty : Int) : Int :=
  if side = Side.BUY then fill_qty else -fill_qty

/-- Position.update from src/position.py: returns the updated position and
the realized P&L delta of this fill. -/
def Position.update (p : Position) (side : Side) (fill_qty : Int) (fill_price : ℚ) :
    Position × ℚ :=
  let signed_qty := signedQty side fill_qty
  if p.quantity = 0 then
    ({ p with quantity := signed_qty, avg_cost := fill_price }, 0)
  else if (p.quantity > 0 ∧ signed_qty > 0) ∨ (p.quantity < 0 ∧ signed_qty < 0) then
    let old_value : ℚ := (|p.quantity| : Int) * p.avg_cost
    let new_value : ℚ := (fill_qty : ℚ) * fill_price
    let q : Int := p.quantity + signed_qty
    ({ p with quantity := q, avg_cost := (old_value + new_value) / ((|q| : Int) : ℚ) }, 0)
  else
    let close_qty : Int := min fill_qty |p.quantity|
    let realized : ℚ :=
      if p.quantity > 0 then (close_qty : ℚ) * (fill_price - p.avg_cost)
      else (close_qty : ℚ) * (p.avg_cost - fill_price)
    let old_quantity := p.quantity
    let q : Int := p.quantity + signed_qty
    let avg : ℚ :=
      if q ≠ 0 ∧ ((old_quantity > 0 ∧ q < 0) ∨ (old_quantity < 0 ∧ q > 0)) then fill_price
      else if q = 0 then 0
      else p.avg_cost
    ({ p with quantity := q, avg_cost := avg, realized_pnl := p.realized_pnl + realized },
     realized)

/-- Position.unrealized_pnl from src/position.py. -/
def Position.unrealized_pnl (p : Position) (current_price : ℚ) : ℚ :=
  if p.quantity = 0 then 0
  else if p.quantity > 0 then (p.quantity : ℚ) * (current_price - p.avg_cost)
  else ((|p.quantity| : Int) : ℚ) * (p.avg_cost - current_price)

/-- Portfolio of positions (src/position.py, Portfolio).  The _positions
dict is an association list in insertion order; the trade log, whose records
carry wall-clock timestamps and are never read by the aggregation the claims
concern, is omitted. -/
structure Portfolio where
  positions : List (String × Position) := []

/-- Reading the ledger of a symbol as Portfolio.get_position returns it: the
stored position when present, a fresh flat one otherwise. -/
def Portfolio.ledger (pf : Portfolio) (symbol : String) : Position :=
  (dictGet pf.positions symbol).getD { symbol := symbol }

/-- Portfolio.update from src/position.py: get_position inserts a fresh
position for an unseen symbol at the end of the dict, and the position is
then updated in place. -/
def Portfolio.update (pf : Portfolio) (symbol : String) (side : Side)
    (fill_qty : Int) (fill_price : ℚ) : Portfolio × ℚ :=
  let p := pf.ledger symbol
  let res := p.update side fill_qty fill_price
  ({ positions := dictSet pf.positions symbol res.1 }, res.2)

/-- Portfolio.total_realized_pnl from src/position.py: sums realized_pnl
over all position ledgers. -/
def Portfolio.total_realized_pnl (pf : Portfolio) : ℚ :=
  (pf.positions.map (fun e => e.2.realized_pnl)).sum

/-- Portfolio.total_unrealized_pnl from src/position.py: sums unrealized_pnl
at the snapshot price over the entries with nonzero quantity whose symbol is
present in the prices mapping. -/
def Portfolio.total_unrealized_pnl (pf : Portfolio) (prices : String → Option ℚ) : ℚ :=
  (pf.positions.filterMap
    (fun e => if e.2.quantity ≠ 0 then (prices e.1).map e.2.unrealized_pnl else none)).sum

/-- One recorded fill: the arguments of one Portfolio.update call. -/
structure FillEvent where
  symbol : String
  side : Side
  qty : Int
  price : ℚ

/-- Folding a sequence of recorded fills into a portfolio. -/
def applyFills (pf : Portfolio) (fills : List FillEvent) : Portfolio :=
  fills.foldl (fun acc f => (acc.update f.symbol f.side f.qty f.price).1) pf

/-- One fill applied to a single-symbol position ledger (the state change of
one Position.update call). -/
def applyFill (p : Position) (f : Side × Int × ℚ) : Position :=
  (p.update f.1 f.2.1 f.2.2).1

/-- Value stored in the exchange client's pending-order table: the symbol,
side and qty read off the submitted body with getattr and its defaults
(src/exchange_client.py, send_order). -/
structure PendingInfo where
  symbol : String
  side : Option Side
  qty : Int
deriving DecidableEq, Repr

/-- Order-tracking state of an ExchangeClient (src/exchange_client.py): the
two counters, the pending-order table, the order-id correlation map, and the
envelopes pushed to the send socket (the socket itself is modelled by this
sent list). -/
structure ClientState where
  client_id : Int
  next_order_id : Int := 1
  next_seq : Int := 1
  pending_orders : List (Int × PendingInfo) := []
  order_id_map : List (Int × Int) := []
  sent : List Envelope := []

/-- Attribute client_order_id of a message body, as hasattr and attribute
access see it: present on the four dataclasses that declare the field,
absent on Fill and on a plain dict. -/
def Body.clientOrderIdAttr : Body → Option Int
  | Body.newOrder r => some r.client_order_id
  | Body.cancel c => some c.client_order_id
  | Body.ack a => some a.client_order_id
  | Body.reject r => some r.client_order_id
  | Body.fill _ => none
  | Body.raw _ => none

/-- Reading getattr(body, "symbol", "") on a message body. -/
def Body.symbolAttr : Body → String
  | Body.newOrder r => r.symbol
  | Body.cancel c => c.symbol
  | Body.ack a => a.symbol
  | Body.reject r => r.symbol
  | Body.fill f => f.symbol
  | Body.raw _ => ""

/-- Reading getattr(body, "side", None) on a message body. -/
def Body.sideAttr : Body → Option Side
  | Body.newOrder r => some r.side
  | Body.fill f => some f.side
  | _ => none

/-- Reading getattr(body, "qty", 0) on a message body (only NewOrderRequest
declares a qty field). -/
def Body.qtyAttr : Body → Int
  | Body.newOrder r => r.qty
  | _ => 0

/-- ExchangeClient.send_order from src/exchange_client.py: pushes the
envelope to the socket and, whenever the body has a client_order_id
attribute, stores a pending entry under that id. -/
def ExchangeClient.send_order (st : ClientState) (envelope : Envelope) : ClientState :=
  let st := { st with sent := st.sent ++ [envelope] }
  match envelope.body.clientOrderIdAttr with
  | some cid =>
    let info : PendingInfo :=
      { symbol := envelope.body.symbolAttr,
        side := envelope.body.sideAttr,
        qty := envelope.body.qtyAttr }
    { st with pending_orders := dictSet st.pending_orders cid info }
  | none => st

/-- Counter allocation inside the with-lock block shared by send_limit_order
and send_market_order (src/exchange_client.py lines 70 to 74 and 80 to 84):
reads and increments both counters in one mutual-exclusion region, which the
model renders as one atomic step. -/
def ExchangeClient.allocIds (st : ClientState) : (Int × Int) × ClientState :=
  ((st.next_order_id, st.next_seq),
   { st with next_order_id := st.next_order_id + 1, next_seq := st.next_seq + 1 })

/-- ExchangeClient.send_limit_order from src/exchange_client.py: allocates
ids under the lock, builds the envelope and sends it; returns the
client_order_id handed to the caller and the new state. -/
def ExchangeClient.send_limit_order (st : ClientState) (symbol : String) (side : Side)
    (qty : Int) (price : Int) (tif : TimeInForce := TimeInForce.DAY) : Int × ClientState :=
  let a := ExchangeClient.allocIds st
  let client_order_id := a.1.1
  let seq := a.1.2
  let envelope := create_new_order st.client_id client_order_id symbol side qty price
    OrdType.LIMIT tif seq
  (client_order_id, ExchangeClient.send_order a.2 envelope)

/-- ExchangeClient.send_market_order from src/exchange_client.py. -/
def ExchangeClient.send_market_order (st : ClientState) (symbol : String) (side : Side)
    (qty : Int) : Int × ClientState :=
  let a := ExchangeClient.allocIds st
  let client_order_id := a.1.1
  let seq := a.1.2
  let envelope := create_new_order st.client_id client_order_id symbol side qty 0
    OrdType.MARKET TimeInForce.DAY seq
  (client_order_id, ExchangeClient.send_order a.2 envelope)

/-- ExchangeClient.cancel_order from src/exchange_client.py: resolves the
venue order_id from the order-id map (0 when no Ack recorded one), allocates
a sequence number under the lock, and sends a CancelRequest envelope.  The
sent envelope is returned alongside the new state. -/
def ExchangeClient.cancel_order (st : ClientState) (symbol : String)
    (client_order_id : Int) : ClientState × Envelope :=
  let order_id := (dictGet st.order_id_map client_order_id).getD 0
  let seq := st.next_seq
  let st := { st with next_seq := st.next_seq + 1 }
  let envelope := create_cancel st.client_id symbol order_id client_order_id seq
  (ExchangeClient.send_order st envelope, envelope)

/-- First client_order_id bound to a venue order_id in the order-id map, in
insertion order: the loop over self.order_id_map.items() inside
_handle_message that breaks at the first match. -/
def firstKeyFor (m : List (Int × Int)) (oid : Int) : Option Int :=
  (m.find? (fun e => e.2 = oid)).map (fun e => e.1)

/-- ExchangeClient._handle_message from src/exchange_client.py, after the
envelope has been parsed: an Ack records the venue order_id, a Reject pops
the pending entry, a complete Fill pops the pending entry of the first
client_order_id mapped to the fill's order_id, and every other body leaves
the state unchanged.  Callbacks perform no state change here and are
omitted. -/
def ExchangeClient.handle_message (st : ClientState) (body : Body) : ClientState :=
  match body with
  | Body.ack a =>
    { st with order_id_map := dictSet st.order_id_map a.client_order_id a.order_id }
  | Body.reject r =>
    { st with pending_orders := dictPop st.pending_orders r.client_order_id }
  | Body.fill f =>
    if f.complete then
      match firstKeyFor st.order_id_map f.order_id with
      | some cid => { st with pending_orders := dictPop st.pending_orders cid }
      | none => st
    else st
  | _ => st

/-- Sequence of counter allocations: n submit calls in the order the lock
serializes them, each performing one atomic allocIds step. -/
def allocRun (st : ClientState) : Nat → List (Int × Int) × ClientState
  | 0 => ([], st)
  | n + 1 =>
    let a := ExchangeClient.allocIds st
    let rest := allocRun a.2 n
    (a.1 :: rest.1, rest.2)

@[simp] lemma signedQty_BUY (q : Int) : signedQty Side.BUY q = q := rfl

@[simp] lemma signedQty_SELL (q : Int) : signedQty Side.SELL q = -q := rfl

lemma dictGet_dictSet_self {α β : Type} [DecidableEq α] (m : List (α × β)) (k : α) (v : β) :
    dictGet (dictSet m k v) k = some v := by
  induction m with
  | nil => simp [dictGet, dictSet]
  | cons e rest ih =>
    by_cases h : e.1 = k
    · simp [dictGet, dictSet, h]
    · simp [dictGet, dictSet, h, ih]

lemma dictGet_eq_none_of_not_mem {α β : Type} [DecidableEq α] {m : List (α × β)} {k : α}
    (h : k ∉ m.map Prod.fst) : dictGet m k = none := by
  induction m with
  | nil => rfl
  | cons e rest ih =>
    simp only [List.map_cons, List.mem_cons] at h
    push_neg at h
    have hne : ¬ e.1 = k := fun hk => h.1 hk.symm
    simp [dictGet, hne, ih h.2]

lemma dictGet_of_mem {α β : Type} [DecidableEq α] {m : List (α × β)}
    (hnd : (m.map Prod.fst).Nodup) {e : α × β} (he : e ∈ m) : dictGet m e.1 = some e.2 := by
  induction m with
  | nil => cases he
  | cons a rest ih =>
    simp only [List.map_cons, List.nodup_cons] at hnd
    rcases List.mem_cons.mp he with rfl | hmem
    · simp [dictGet]
    · have hne : a.1 ≠ e.1 := by
        intro hcontra
        exact hnd.1 (hcontra ▸ List.mem_map_of_mem Prod.fst hmem)
      simp [dictGet, hne, ih hnd.2 hmem]

lemma mem_keys_dictSet {α β : Type} [DecidableEq α] {m : List (α × β)} {k x : α} {v : β}
    (h : x ∈ (dictSet m k v).map Prod.fst) : x ∈ m.map Prod.fst ∨ x = k := by
  induction m with
  | nil => simpa [dictSet] using h
  | cons e rest ih =>
    simp only [List.map_cons, List.mem_cons]
    by_cases he : e.1 = k
    · simp only [dictSet, if_pos he, List.map_cons, List.mem_cons] at h
      rcases h with rfl | h
      · right; rfl
      · left; right; exact h
    · simp only [dictSet, if_neg he, List.map_cons, List.mem_cons] at h
      rcases h with rfl | h
      · left; left; rfl
      · rcases ih h with h' | h'
        · left; right; exact h'
        · right; exact h'

lemma nodup_keys_dictSet {α β : Type} [DecidableEq α] {m : List (α × β)} (k : α) (v : β)
    (hnd : (m.map Prod.fst).Nodup) : ((dictSet m k v).map Prod.fst).Nodup := by
  induction m with
  | nil => simp [dictSet]
  | cons e rest ih =>
    simp only [List.map_cons, List.nodup_cons] at hnd
    by_cases he : e.1 = k
    · subst he
      simpa [dictSet, List.nodup_cons] using hnd
    · have hrest : ((dictSet rest k v).map Prod.fst).Nodup := ih hnd.2
      simp only [dictSet, if_neg he, List.map_cons, List.nodup_cons]
      refine ⟨fun hmem => ?_, hrest⟩
      rcases mem_keys_dictSet hmem with h' | h'
      · exact hnd.1 h'
      · exact he h'

lemma dictGet_dictPop_self {α β : Type} [DecidableEq α] {m : List (α × β)} (k : α)
    (hnd : (m.map Prod.fst).Nodup) : dictGet (dictPop m k) k = none := by
  induction m with
  | nil => rfl
  | cons e rest ih =>
    simp only [List.map_cons, List.nodup_cons] at hnd
    by_cases he : e.1 = k
    · subst he
      simp only [dictPop, if_pos rfl]
      exact dictGet_eq_none_of_not_mem hnd.1
    · simp [dictPop, dictGet, he, ih hnd.2]

/-- Claim C1: reducing or flipping fills.  When the position's quantity is
nonzero and the fill's signed quantity has the opposite sign, Position.update
returns realized delta close_qty*(fill_price - avg_cost) for a long position
and close_qty*(avg_cost - fill_price) for a short one, with close_qty =
min(fill_qty, |quantity|); quantity becomes quantity + signed_qty; avg_cost
becomes 0 when the new quantity is 0, fill_price when the sign flipped, and
is unchanged otherwise; the realized delta is also accumulated into
realized_pnl. -/
theorem position_update_reducing_or_flipping (p : Position) (side : Side)
    (fq : Int) (fp : ℚ)
    (hq : p.quantity ≠ 0)
    (hopp : (p.quantity > 0 ∧ signedQty side fq < 0) ∨
            (p.quantity < 0 ∧ signedQty side fq > 0)) :
    (p.update side fq fp).2 =
      (if p.quantity > 0 then ((min fq |p.quantity| : Int) : ℚ) * (fp - p.avg_cost)
       else ((min fq |p.quantity| : Int) : ℚ) * (p.avg_cost - fp)) ∧
    (p.update side fq fp).1.quantity = p.quantity + signedQty side fq ∧
    (p.update side fq fp).1.avg_cost =
      (if p.quantity + signedQty side fq = 0 then 0
       else if (p.quantity > 0 ∧ p.quantity + signedQty side fq < 0) ∨
               (p.quantity < 0 ∧ p.quantity + signedQty side fq > 0) then fp
       else p.avg_cost) ∧
    (p.update side fq fp).1.realized_pnl = p.realized_pnl + (p.update side fq fp).2 ∧
    (p.update side fq fp).1.symbol = p.symbol := by
  have hnots : ¬ ((p.quantity > 0 ∧ signedQty side fq > 0) ∨
      (p.quantity < 0 ∧ signedQty side fq < 0)) := by omega
  refine ⟨?_, ?_, ?_, ?_, ?_⟩
  · simp only [Position.update, if_neg hq, if_neg hnots]
  · simp only [Position.update, if_neg hq, if_neg hnots]
  · simp only [Position.update, if_neg hq, if_neg hnots]
    split_ifs <;> first | rfl | omega
  · simp only [Position.update, if_neg hq, if_neg hnots]
  · simp only [Position.update, if_neg hq, if_neg hnots]

/-- Claim C1's witness: the spec's two concrete instances.  Long 10@100 then
sell 15@120 realizes 200 with quantity -5 and avg_cost 120; long 10@100 then
sell 10@90 realizes -100 with quantity 0 and avg_cost 0. -/
theorem position_update_reducing_or_flipping_witness :
    (((10 : Int) ≠ 0) ∧
     (((10 : Int) > 0 ∧ signedQty Side.SELL 15 < 0) ∨
      ((10 : Int) < 0 ∧ signedQty Side.SELL 15 > 0)) ∧
     (({ symbol := "S", quantity := 10, avg_cost := 100 } : Position).update Side.SELL 15 120).2 = 200 ∧
     (({ symbol := "S", quantity := 10, avg_cost := 100 } : Position).update Side.SELL 15 120).1.quantity = -5 ∧
     (({ symbol := "S", quantity := 10, avg_cost := 100 } : Position).update Side.SELL 15 120).1.avg_cost = 120) ∧
    ((({ symbol := "S", quantity := 10, avg_cost := 100 } : Position).update Side.SELL 10 90).2 = -100 ∧
     (({ symbol := "S", quantity := 10, avg_cost := 100 } : Position).update Side.SELL 10 90).1.quantity = 0 ∧
     (({ symbol := "S", quantity := 10, avg_cost := 100 } : Position).update Side.SELL 10 90).1.avg_cost = 0) := by
  have h1 := position_update_reducing_or_flipping
    { symbol := "S", quantity := 10, avg_cost := 100 } Side.SELL 15 120
    (by decide) (Or.inl (by decide))
  have h2 := position_update_reducing_or_flipping
    { symbol := "S", quantity := 10, avg_cost := 100 } Side.SELL 10 90
    (by decide) (Or.inl (by decide))
  refine ⟨⟨by decide, Or.inl (by decide), ?_, ?_, ?_⟩, ?_, ?_, ?_⟩
  · rw [h1.1]; norm_num
  · rw [h1.2.1]; decide
  · rw [h1.2.2.1]; norm_num
  · rw [h2.1]; norm_num
  · rw [h2.2.1]; decide
  · rw [h2.2.2.1]; norm_num

/-- Claim C4: adding to a position.  When the fill's signed quantity has the
same sign as the position's nonzero quantity, Position.update returns
realized delta 0, quantity becomes quantity + signed_qty, avg_cost becomes
the size-weighted average (|quantity|*avg_cost + fill_qty*fill_price) /
|quantity + signed_qty|, and realized_pnl is unchanged. -/
theorem position_update_adding (p : Position) (side : Side) (fq : Int) (fp : ℚ)
    (hsame : (p.quantity > 0 ∧ signedQty side fq > 0) ∨
             (p.quantity < 0 ∧ signedQty side fq < 0)) :
    (p.update side fq fp).2 = 0 ∧
    (p.update side fq fp).1.quantity = p.quantity + signedQty side fq ∧
    (p.update side fq fp).1.avg_cost =
      (((|p.quantity| : Int) : ℚ) * p.avg_cost + (fq : ℚ) * fp) /
        ((|p.quantity + signedQty side fq| : Int) : ℚ) ∧
    (p.update side fq fp).1.realized_pnl = p.realized_pnl ∧
    (p.update side fq fp).1.symbol = p.symbol := by
  have hq : ¬ p.quantity = 0 := by omega
  refine ⟨?_, ?_, ?_, ?_, ?_⟩ <;>
    simp only [Position.update, if_neg hq, if_pos hsame]

/-- Claim C4's witness: the spec's concrete instance.  Open long 10@100 then
buy 10@110 gives quantity 20, avg_cost 105, realized delta 0. -/
theorem position_update_adding_witness :
    ((((10 : Int) > 0 ∧ signedQty Side.BUY 10 > 0) ∨
      ((10 : Int) < 0 ∧ signedQty Side.BUY 10 < 0))) ∧
    (({ symbol := "S", quantity := 10, avg_cost := 100 } : Position).update Side.BUY 10 110).2 = 0 ∧
    (({ symbol := "S", quantity := 10, avg_cost := 100 } : Position).update Side.BUY 10 110).1.quantity = 20 ∧
    (({ symbol := "S", quantity := 10, avg_cost := 100 } : Position).update Side.BUY 10 110).1.avg_cost = 105 ∧
    (({ symbol := "S", quantity := 10, avg_cost := 100 } : Position).update Side.BUY 10 110).1.realized_pnl = 0 := by
  have h := position_update_adding
    { symbol := "S", quantity := 10, avg_cost := 100 } Side.BUY 10 110
    (Or.inl (by decide))
  refine ⟨Or.inl (by decide), h.1, ?_, ?_, ?_⟩
  · rw [h.2.1]; decide
  · rw [h.2.2.1]; norm_num
  · rw [h.2.2.2.1]

lemma position_update_invariant (p : Position) (side : Side) (fq : Int) (fp : ℚ)
    (hfq : 0 < fq) (hfp : 0 < fp)
    (h0 : p.quantity = 0 → p.avg_cost = 0) (hpos : p.quantity ≠ 0 → 0 < p.avg_cost) :
    ((p.update side fq fp).1.quantity = 0 → (p.update side fq fp).1.avg_cost = 0) ∧
    ((p.update side fq fp).1.quantity ≠ 0 → 0 < (p.update side fq fp).1.avg_cost) := by
  have hsq : signedQty side fq = fq ∨ signedQty side fq = -fq := by
    cases side <;> simp
  by_cases hq : p.quantity = 0
  · simp only [Position.update, if_pos hq]
    constructor
    · intro h
      exact absurd h (by omega)
    · intro _
      exact hfp
  · by_cases hsame : (p.quantity > 0 ∧ signedQty side fq > 0) ∨
        (p.quantity < 0 ∧ signedQty side fq < 0)
    · simp only [Position.update, if_neg hq, if_pos hsame]
      have hq' : p.quantity + signedQty side fq ≠ 0 := by omega
      constructor
      · intro h
        exact absurd h hq'
      · intro _
        apply div_pos
        · have h1 : (0 : ℚ) < ((|p.quantity| : Int) : ℚ) := by
            exact_mod_cast abs_pos.mpr hq
          have h2 : (0 : ℚ) < (fq : ℚ) := by exact_mod_cast hfq
          exact add_pos (mul_pos h1 (hpos hq)) (mul_pos h2 hfp)
        · exact_mod_cast abs_pos.mpr hq'
    · simp only [Position.update, if_neg hq, if_neg hsame]
      constructor
      · intro h
        rw [if_neg (by omega : ¬ (p.quantity + signedQty side fq ≠ 0 ∧
              ((p.quantity > 0 ∧ p.quantity + signedQty side fq < 0) ∨
               (p.quantity < 0 ∧ p.quantity + signedQty side fq > 0)))), if_pos h]
      · intro h
        split_ifs with hA
        · exact hfp
        · exact hpos hq

lemma position_applyFills_invariant (fills : List (Side × Int × ℚ)) (p : Position)
    (hf : ∀ f ∈ fills, 0 < f.2.1 ∧ 0 < f.2.2)
    (h0 : p.quantity = 0 → p.avg_cost = 0) (hpos : p.quantity ≠ 0 → 0 < p.avg_cost) :
    ((fills.foldl applyFill p).quantity = 0 → (fills.foldl applyFill p).avg_cost = 0) ∧
    ((fills.foldl applyFill p).quantity ≠ 0 → 0 < (fills.foldl applyFill p).avg_cost) := by
  induction fills generalizing p with
  | nil => exact ⟨h0, hpos⟩
  | cons f rest ih =>
    have hstep := position_update_invariant p f.1 f.2.1 f.2.2
      (hf f (List.mem_cons_self f rest)).1 (hf f (List.mem_cons_self f rest)).2 h0 hpos
    exact ih (applyFill p f) (fun g hg => hf g (List.mem_cons_of_mem f hg))
      hstep.1 hstep.2

/-- Claim C7 (amended): for every position reached from a fresh flat
position by a sequence of Position.update calls whose fill quantities and
fill prices are all positive, avg_cost equals 0 exactly when quantity equals
0.  (The unamended claim, over arbitrary fills, fails: a fill with price 0
or quantity 0 breaks the biconditional, see the counterexample.) -/
theorem position_avg_cost_zero_iff_quantity_zero (fills : List (Side × Int × ℚ)) (s : String)
    (hf : ∀ f ∈ fills, 0 < f.2.1 ∧ 0 < f.2.2) :
    ((fills.foldl applyFill { symbol := s }).quantity = 0 ↔
     (fills.foldl applyFill { symbol := s }).avg_cost = 0) := by
  have h := position_applyFills_invariant fills { symbol := s } hf
    (fun _ => rfl) (fun hq => absurd rfl hq)
  constructor
  · exact h.1
  · intro ha
    by_contra hq
    exact absurd ha (ne_of_gt (h.2 hq))

/-- Claim C7's counterexample: the biconditional is not preserved by every
update.  From a fresh flat position, a buy of 5 at price 0 leaves quantity 5
with avg_cost 0, and a buy of 0 at price 100 leaves quantity 0 with avg_cost
100; in both cases quantity = 0 iff avg_cost = 0 fails after the call though
it held before. -/
theorem position_avg_cost_invariant_counterexample :
    (((Position.mk "X" 0 0 0).update Side.BUY 5 0).1.quantity = 5 ∧
     ((Position.mk "X" 0 0 0).update Side.BUY 5 0).1.avg_cost = 0 ∧
     ¬ (((Position.mk "X" 0 0 0).update Side.BUY 5 0).1.quantity = 0 ↔
        ((Position.mk "X" 0 0 0).update Side.BUY 5 0).1.avg_cost = 0)) ∧
    (((Position.mk "X" 0 0 0).update Side.BUY 0 100).1.quantity = 0 ∧
     ((Position.mk "X" 0 0 0).update Side.BUY 0 100).1.avg_cost = 100 ∧
     ¬ (((Position.mk "X" 0 0 0).update Side.BUY 0 100).1.quantity = 0 ↔
        ((Position.mk "X" 0 0 0).update Side.BUY 0 100).1.avg_cost = 0)) := by
  refine ⟨⟨?_, ?_, ?_⟩, ?_, ?_, ?_⟩ <;> norm_num [Position.update]

/-- Claim C7's witness: a long 10@100 fully closed by a sell 10@90 — all
fills positive — ends with quantity 0 and avg_cost 0, and the biconditional
holds. -/
theorem position_avg_cost_zero_iff_quantity_zero_witness :
    (∀ f ∈ ([(Side.BUY, 10, 100), (Side.SELL, 10, 90)] : List (Side × Int × ℚ)),
      0 < f.2.1 ∧ 0 < f.2.2) ∧
    ((([(Side.BUY, 10, 100), (Side.SELL, 10, 90)] : List (Side × Int × ℚ)).foldl
        applyFill { symbol := "S" }).quantity = 0 ↔
     (([(Side.BUY, 10, 100), (Side.SELL, 10, 90)] : List (Side × Int × ℚ)).foldl
        applyFill { symbol := "S" }).avg_cost = 0) := by
  refine ⟨by decide, position_avg_cost_zero_iff_quantity_zero _ "S" (by decide)⟩

lemma filterMap_congr_mem {α β : Type} {f g : α → Option β} :
    ∀ (l : List α), (∀ a ∈ l, f a = g a) → l.filterMap f = l.filterMap g
  | [], _ => rfl
  | a :: l, h => by
    have ha := h a (List.mem_cons_self a l)
    have hrest := filterMap_congr_mem l (fun x hx => h x (List.mem_cons_of_mem a hx))
    simp only [List.filterMap_cons, ha, hrest]

lemma applyFills_nodup_keys (fills : List FillEvent) (pf : Portfolio)
    (h : (pf.positions.map Prod.fst).Nodup) :
    ((applyFills pf fills).positions.map Prod.fst).Nodup := by
  induction fills generalizing pf with
  | nil => exact h
  | cons f rest ih =>
    show ((applyFills (pf.update f.symbol f.side f.qty f.price).1 rest).positions.map Prod.fst).Nodup
    exact ih _ (nodup_keys_dictSet _ _ h)

lemma total_realized_eq_sum_over_keys (pf : Portfolio)
    (h : (pf.positions.map Prod.fst).Nodup) :
    pf.total_realized_pnl =
      ((pf.positions.map Prod.fst).map (fun s => (pf.ledger s).realized_pnl)).sum := by
  unfold Portfolio.total_realized_pnl
  rw [List.map_map]
  congr 1
  apply List.map_congr_left
  intro e he
  show e.2.realized_pnl = (pf.ledger e.1).realized_pnl
  rw [Portfolio.ledger, dictGet_of_mem h he]
  rfl

lemma total_unrealized_eq_sum_over_keys (pf : Portfolio)
    (h : (pf.positions.map Prod.fst).Nodup) (prices : String → Option ℚ) :
    pf.total_unrealized_pnl prices =
      ((pf.positions.map Prod.fst).filterMap
        (fun s => if (pf.ledger s).quantity ≠ 0
                  then (prices s).map (pf.ledger s).unrealized_pnl else none)).sum := by
  unfold Portfolio.total_unrealized_pnl
  rw [List.filterMap_map]
  congr 1
  apply filterMap_congr_mem
  intro e he
  show (if e.2.quantity ≠ 0 then (prices e.1).map e.2.unrealized_pnl else none) =
       (if (pf.ledger e.1).quantity ≠ 0
        then (prices e.1).map (pf.ledger e.1).unrealized_pnl else none)
  rw [Portfolio.ledger, dictGet_of_mem h he]
  rfl

/-- Claim C8: for every portfolio state reached by an arbitrary sequence of
recorded fills, the symbol keys are distinct, total_realized_pnl equals the
sum of realized_pnl over the per-symbol Position ledgers, and for every
price snapshot total_unrealized_pnl equals the sum of unrealized_pnl at the
snapshot price over exactly those symbols whose ledger quantity is nonzero
and that are present in the snapshot; symbols absent from the snapshot
contribute nothing. -/
theorem portfolio_aggregation (fills : List FillEvent) :
    ((applyFills {} fills).positions.map Prod.fst).Nodup ∧
    (applyFills {} fills).total_realized_pnl =
      (((applyFills {} fills).positions.map Prod.fst).map
        (fun s => ((applyFills {} fills).ledger s).realized_pnl)).sum ∧
    ∀ prices : String → Option ℚ,
      (applyFills {} fills).total_unrealized_pnl prices =
        (((applyFills {} fills).positions.map Prod.fst).filterMap
          (fun s => if ((applyFills {} fills).ledger s).quantity ≠ 0
                    then (prices s).map ((applyFills {} fills).ledger s).unrealized_pnl
                    else none)).sum := by
  have hnd := applyFills_nodup_keys fills {} (by simp)
  exact ⟨hnd, total_realized_eq_sum_over_keys _ hnd,
    fun prices => total_unrealized_eq_sum_over_keys _ hnd prices⟩

/-- Claim C2's evaluation at the failing input: the codec does not round
trip.  For a NewOrderRequest body, to_dict never returns its dict (the
source lacks the return statement), so the encoded body is null and decoding
gives back an envelope whose body is the raw null value, not the original
message; and encoding an Ack body fails outright because Ack has no to_dict
and json.dumps rejects the dataclass object. -/
theorem codec_round_trip_fails :
    (create_new_order 7 1 "AAPL" Side.BUY 5 100 OrdType.LIMIT TimeInForce.DAY 3).body =
      Body.newOrder { client_order_id := 1, symbol := "AAPL", side := Side.BUY,
                      ord_type := OrdType.LIMIT, qty := 5, limit_price := 100,
                      tif := TimeInForce.DAY } ∧
    ((create_new_order 7 1 "AAPL" Side.BUY 5 100 OrdType.LIMIT TimeInForce.DAY 3).to_json.bind
        Envelope.from_json) =
      some { header := { version := 1, type := MsgType.NEW_ORDER, seq := 3, client_id := 7 },
             body := Body.raw Json.null } ∧
    Body.raw Json.null ≠
      Body.newOrder { client_order_id := 1, symbol := "AAPL", side := Side.BUY,
                      ord_type := OrdType.LIMIT, qty := 5, limit_price := 100,
                      tif := TimeInForce.DAY } ∧
    Envelope.to_json { header := { type := MsgType.ACK },
                       body := Body.ack { client_order_id := 1, order_id := 2 } } = none := by
  refine ⟨rfl, rfl, ?_, rfl⟩
  intro h
  cases h

/-- Claim C5's counterexample: decoding is not total over every integer
header type.  The wire value 3 is not a MsgType member, so MsgType(3) raises
ValueError and Envelope.from_json fails instead of preserving the body. -/
theorem decode_unknown_type_counterexample :
    Envelope.from_json
      (Json.obj [("header", Json.obj [("type", Json.int 3)]), ("body", Json.obj [])]) =
      none := rfl

/-- Claim C5 (amended): for every header type that is a valid MsgType member
other than ACK, REJECT and FILL (that is NEW_ORDER, CANCEL and HEARTBEAT),
decoding does not fail and the body is preserved as the opaque raw value;
integer type values outside the MsgType members make decoding raise (see the
counterexample). -/
theorem decode_unknown_type_preserves_body (t : MsgType)
    (ha : t ≠ MsgType.ACK) (hr : t ≠ MsgType.REJECT) (hf : t ≠ MsgType.FILL)
    (v s c : Int) (b : Json) :
    Envelope.from_json
      (Json.obj [("header", Json.obj [("version", Json.int v), ("type", Json.int t.toInt),
                                      ("seq", Json.int s), ("client_id", Json.int c)]),
                 ("body", b)]) =
      some { header := { version := v, type := t, seq := s, client_id := c },
             body := Body.raw b } := by
  cases t <;> first
    | exact absurd rfl ha
    | exact absurd rfl hr
    | exact absurd rfl hf
    | rfl

/-- Claim C5's witness: a HEARTBEAT envelope with an object body decodes to
the same header and the raw body. -/
theorem decode_unknown_type_preserves_body_witness :
    MsgType.HEARTBEAT ≠ MsgType.ACK ∧ MsgType.HEARTBEAT ≠ MsgType.REJECT ∧
    MsgType.HEARTBEAT ≠ MsgType.FILL ∧
    Envelope.from_json
      (Json.obj [("header", Json.obj [("version", Json.int 1),
                                      ("type", Json.int MsgType.HEARTBEAT.toInt),
                                      ("seq", Json.int 4), ("client_id", Json.int 9)]),
                 ("body", Json.obj [("x", Json.int 1)])]) =
      some { header := { version := 1, type := MsgType.HEARTBEAT, seq := 4, client_id := 9 },
             body := Body.raw (Json.obj [("x", Json.int 1)]) } := by
  refine ⟨by decide, by decide, by decide, ?_⟩
  exact decode_unknown_type_preserves_body MsgType.HEARTBEAT
    (by decide) (by decide) (by decide) 1 4 9 (Json.obj [("x", Json.int 1)])

/-- Claim C10's counterexample: header decoding can fail even when the type
field is present and only optional fields are missing.  The object with just
type 3 lacks only optional fields, yet MsgType(3) raises ValueError and
from_dict fails. -/
theorem header_from_dict_invalid_type_counterexample :
    MessageHeader.from_dict [("type", Json.int 3)] = none := rfl

/-- Claim C10 (amended): decoding a header object fails exactly on the type
field.  Any object lacking type fails (KeyError, no default); any object
whose type value is a valid MsgType integer decodes, and each missing
optional field takes its default: version 1, seq 0, client_id 0.  A present
type value outside the MsgType members also fails (see the
counterexample). -/
theorem header_from_dict_defaults (d : List (String × Json)) (t : Int) (mt : MsgType)
    (ht : dictGet d "type" = some (Json.int t)) (hmt : MsgType.ofInt t = some mt) :
    (∀ d' : List (String × Json), dictGet d' "type" = none →
      MessageHeader.from_dict d' = none) ∧
    MessageHeader.from_dict d =
      some { version := jsonIntOr d "version" 1, type := mt,
             seq := jsonIntOr d "seq" 0, client_id := jsonIntOr d "client_id" 0 } ∧
    (dictGet d "version" = none → jsonIntOr d "version" 1 = 1) ∧
    (dictGet d "seq" = none → jsonIntOr d "seq" 0 = 0) ∧
    (dictGet d "client_id" = none → jsonIntOr d "client_id" 0 = 0) := by
  refine ⟨?_, ?_, ?_, ?_, ?_⟩
  · intro d' hd'
    unfold MessageHeader.from_dict
    rw [hd']
  · unfold MessageHeader.from_dict
    rw [ht]
    simp only [hmt]
  · intro hv
    unfold jsonIntOr
    rw [hv]
  · intro hs
    unfold jsonIntOr
    rw [hs]
  · intro hc
    unfold jsonIntOr
    rw [hc]

/-- Claim C10's witness: the object holding only type 900 decodes to the
all-defaults HEARTBEAT header, and an object lacking type fails. -/
theorem header_from_dict_defaults_witness :
    dictGet ([("type", Json.int 900)] : List (String × Json)) "type" = some (Json.int 900) ∧
    MsgType.ofInt 900 = some MsgType.HEARTBEAT ∧
    MessageHeader.from_dict [("type", Json.int 900)] =
      some { version := 1, type := MsgType.HEARTBEAT, seq := 0, client_id := 0 } ∧
    MessageHeader.from_dict [("seq", Json.int 5)] = none := by
  have h := header_from_dict_defaults [("type", Json.int 900)] 900 MsgType.HEARTBEAT rfl rfl
  refine ⟨rfl, rfl, ?_, ?_⟩
  · exact h.2.1
  · exact h.1 [("seq", Json.int 5)] rfl

/-- Claim C3: pending-order lifecycle at the exchange client.  After a
submit, an entry keyed by the returned client_order_id exists; an Ack
records the venue order_id without removing the entry; a Reject removes it;
a complete Fill whose order_id resolves (through the order-id map an Ack
filled) to that client_order_id removes it; an incomplete Fill changes
nothing. -/
theorem pending_order_lifecycle :
    (∀ (st : ClientState) (symbol : String) (side : Side) (qty price : Int)
        (tif : TimeInForce),
      dictGet (ExchangeClient.send_limit_order st symbol side qty price tif).2.pending_orders
          (ExchangeClient.send_limit_order st symbol side qty price tif).1 =
        some { symbol := symbol, side := some side, qty := qty }) ∧
    (∀ (st : ClientState) (a : Ack),
      dictGet (ExchangeClient.handle_message st (Body.ack a)).order_id_map
          a.client_order_id = some a.order_id ∧
      (ExchangeClient.handle_message st (Body.ack a)).pending_orders = st.pending_orders) ∧
    (∀ (st : ClientState) (r : Reject),
      (st.pending_orders.map Prod.fst).Nodup →
      dictGet (ExchangeClient.handle_message st (Body.reject r)).pending_orders
          r.client_order_id = none) ∧
    (∀ (st : ClientState) (f : Fill) (cid : Int),
      f.complete = true →
      (st.pending_orders.map Prod.fst).Nodup →
      firstKeyFor st.order_id_map f.order_id = some cid →
      dictGet (ExchangeClient.handle_message st (Body.fill f)).pending_orders cid = none) ∧
    (∀ (st : ClientState) (f : Fill),
      f.complete = false →
      ExchangeClient.handle_message st (Body.fill f) = st) := by
  refine ⟨?_, ?_, ?_, ?_, ?_⟩
  · intro st symbol side qty price tif
    simp only [ExchangeClient.send_limit_order, ExchangeClient.allocIds,
      ExchangeClient.send_order, create_new_order, Body.clientOrderIdAttr,
      Body.symbolAttr, Body.sideAttr, Body.qtyAttr]
    exact dictGet_dictSet_self _ _ _
  · intro st a
    exact ⟨dictGet_dictSet_self _ _ _, rfl⟩
  · intro st r hnd
    exact dictGet_dictPop_self _ hnd
  · intro st f cid hc hnd hfk
    simp only [ExchangeClient.handle_message, hc, if_true, hfk]
    exact dictGet_dictPop_self _ hnd
  · intro st f hc
    simp [ExchangeClient.handle_message, hc]

/-- Claim C3's witness: a concrete run.  Submitting from a fresh client
stores the pending entry under the returned id 1; an Ack for id 1 with venue
order 55 records the mapping and keeps the entry; a Reject for id 1 removes
it; a complete Fill for venue order 55 removes it after the Ack recorded the
mapping; an incomplete Fill leaves the state untouched. -/
theorem pending_order_lifecycle_witness :
    dictGet (ExchangeClient.send_limit_order { client_id := 7 } "AAPL" Side.BUY 5 100
        TimeInForce.DAY).2.pending_orders
      (ExchangeClient.send_limit_order { client_id := 7 } "AAPL" Side.BUY 5 100
        TimeInForce.DAY).1 = some { symbol := "AAPL", side := some Side.BUY, qty := 5 } ∧
    (dictGet (ExchangeClient.handle_message
        { client_id := 7, pending_orders := [(1, { symbol := "AAPL", side := some Side.BUY, qty := 5 })] }
        (Body.ack { client_order_id := 1, order_id := 55 })).order_id_map 1 = some 55 ∧
     (ExchangeClient.handle_message
        { client_id := 7, pending_orders := [(1, { symbol := "AAPL", side := some Side.BUY, qty := 5 })] }
        (Body.ack { client_order_id := 1, order_id := 55 })).pending_orders =
       [(1, { symbol := "AAPL", side := some Side.BUY, qty := 5 })]) ∧
    dictGet (ExchangeClient.handle_message
        { client_id := 7, pending_orders := [(1, { symbol := "AAPL", side := some Side.BUY, qty := 5 })] }
        (Body.reject { client_order_id := 1 })).pending_orders 1 = none ∧
    dictGet (ExchangeClient.handle_message
        { client_id := 7, pending_orders := [(1, { symbol := "AAPL", side := some Side.BUY, qty := 5 })],
          order_id_map := [(1, 55)] }
        (Body.fill { order_id := 55, complete := true })).pending_orders 1 = none ∧
    ExchangeClient.handle_message
        { client_id := 7, pending_orders := [(1, { symbol := "AAPL", side := some Side.BUY, qty := 5 })],
          order_id_map := [(1, 55)] }
        (Body.fill { order_id := 55, complete := false }) =
      { client_id := 7, pending_orders := [(1, { symbol := "AAPL", side := some Side.BUY, qty := 5 })],
        order_id_map := [(1, 55)] } := by
  have h := pending_order_lifecycle
  refine ⟨h.1 { client_id := 7 } "AAPL" Side.BUY 5 100 TimeInForce.DAY, ?_, ?_, ?_, ?_⟩
  · exact h.2.1 _ { client_order_id := 1, order_id := 55 }
  · exact h.2.2.1 _ { client_order_id := 1 } (by decide)
  · exact h.2.2.2.1 _ { order_id := 55, complete := true } 1 rfl (by decide) rfl
  · exact h.2.2.2.2 _ { order_id := 55, complete := false } rfl

/-- Claim C6's evaluation at the failing input: cancel_order resolves the
venue order_id (0 when no Ack arrived), allocates a fresh sequence number
and sends a CancelRequest — but it does not leave the pending-order table
unchanged.  send_order stores a pending entry for every body carrying a
client_order_id attribute, and CancelRequest carries one, so the cancel
overwrites the pending entry with side None and qty 0. -/
theorem cancel_order_mutates_pending :
    (ExchangeClient.cancel_order
        { client_id := 7, next_order_id := 2, next_seq := 2,
          pending_orders := [(1, { symbol := "AAPL", side := some Side.BUY, qty := 5 })] }
        "AAPL" 1).2.body =
      Body.cancel { symbol := "AAPL", order_id := 0, client_order_id := 1 } ∧
    (ExchangeClient.cancel_order
        { client_id := 7, next_order_id := 2, next_seq := 2,
          pending_orders := [(1, { symbol := "AAPL", side := some Side.BUY, qty := 5 })] }
        "AAPL" 1).2.header.type = MsgType.CANCEL ∧
    (ExchangeClient.cancel_order
        { client_id := 7, next_order_id := 2, next_seq := 2,
          pending_orders := [(1, { symbol := "AAPL", side := some Side.BUY, qty := 5 })] }
        "AAPL" 1).2.header.seq = 2 ∧
    (ExchangeClient.cancel_order
        { client_id := 7, next_order_id := 2, next_seq := 2,
          pending_orders := [(1, { symbol := "AAPL", side := some Side.BUY, qty := 5 })] }
        "AAPL" 1).1.next_seq = 3 ∧
    (ExchangeClient.cancel_order
        { client_id := 7, next_order_id := 2, next_seq := 2,
          pending_orders := [(1, { symbol := "AAPL", side := some Side.BUY, qty := 5 })] }
        "AAPL" 1).1.order_id_map = [] ∧
    (ExchangeClient.cancel_order
        { client_id := 7, next_order_id := 2, next_seq := 2,
          pending_orders := [(1, { symbol := "AAPL", side := some Side.BUY, qty := 5 })] }
        "AAPL" 1).1.pending_orders = [(1, { symbol := "AAPL", side := none, qty := 0 })] ∧
    (ExchangeClient.cancel_order
        { client_id := 7, next_order_id := 2, next_seq := 2,
          pending_orders := [(1, { symbol := "AAPL", side := some Side.BUY, qty := 5 })] }
        "AAPL" 1).1.pending_orders ≠
      [(1, { symbol := "AAPL", side := some Side.BUY, qty := 5 })] := by
  refine ⟨rfl, rfl, rfl, rfl, rfl, rfl, ?_⟩
  decide

lemma allocRun_bounds (n : Nat) (st : ClientState) :
    ∀ x ∈ (allocRun st n).1, st.next_order_id ≤ x.1 ∧ st.next_seq ≤ x.2 := by
  induction n generalizing st with
  | zero => intro x hx; cases hx
  | succ n ih =>
    intro x hx
    rcases List.mem_cons.mp hx with rfl | hx'
    · exact ⟨le_refl _, le_refl _⟩
    · have h := ih (ExchangeClient.allocIds st).2 x hx'
      simp only [ExchangeClient.allocIds] at h
      exact ⟨by omega, by omega⟩

lemma allocRun_pairwise (n : Nat) (st : ClientState) :
    ((allocRun st n).1.map Prod.fst).Pairwise (· < ·) ∧
    ((allocRun st n).1.map Prod.snd).Pairwise (· < ·) := by
  induction n generalizing st with
  | zero => exact ⟨List.Pairwise.nil, List.Pairwise.nil⟩
  | succ n ih =>
    have hb := allocRun_bounds n (ExchangeClient.allocIds st).2
    have hi := ih (ExchangeClient.allocIds st).2
    constructor
    · refine List.pairwise_cons.mpr ⟨?_, hi.1⟩
      intro y hy
      rcases List.mem_map.mp hy with ⟨x, hx, rfl⟩
      have hbx := (hb x hx).1
      simp only [ExchangeClient.allocIds] at hbx ⊢
      omega
    · refine List.pairwise_cons.mpr ⟨?_, hi.2⟩
      intro y hy
      rcases List.mem_map.mp hy with ⟨x, hx, rfl⟩
      have hbx := (hb x hx).2
      simp only [ExchangeClient.allocIds] at hbx ⊢
      omega

lemma allocRun_length (n : Nat) (st : ClientState) : (allocRun st n).1.length = n := by
  induction n generalizing st with
  | zero => rfl
  | succ n ih => simp [allocRun, ih]

/-- Claim C9: n submit calls, serialized by the client's single
mutual-exclusion region (modelled as the atomic allocIds step each submit
performs exactly once), yield n client_order_id values and n sequence
numbers that are strictly increasing in execution order and pairwise
distinct; send_limit_order and send_market_order each hand out exactly the
allocated client_order_id and advance both counters by one. -/
theorem submit_ids_strictly_increasing (st : ClientState) (n : Nat) :
    (allocRun st n).1.length = n ∧
    ((allocRun st n).1.map Prod.fst).Pairwise (· < ·) ∧
    ((allocRun st n).1.map Prod.snd).Pairwise (· < ·) ∧
    ((allocRun st n).1.map Prod.fst).Nodup ∧
    ((allocRun st n).1.map Prod.snd).Nodup ∧
    (∀ (symbol : String) (side : Side) (qty price : Int) (tif : TimeInForce),
      (ExchangeClient.send_limit_order st symbol side qty price tif).1 = st.next_order_id ∧
      (ExchangeClient.send_limit_order st symbol side qty price tif).2.next_order_id =
        st.next_order_id + 1 ∧
      (ExchangeClient.send_limit_order st symbol side qty price tif).2.next_seq =
        st.next_seq + 1) ∧
    (∀ (symbol : String) (side : Side) (qty : Int),
      (ExchangeClient.send_market_order st symbol side qty).1 = st.next_order_id ∧
      (ExchangeClient.send_market_order st symbol side qty).2.next_order_id =
        st.next_order_id + 1 ∧
      (ExchangeClient.send_market_order st symbol side qty).2.next_seq =
        st.next_seq + 1) := by
  have hp := allocRun_pairwise n st
  refine ⟨allocRun_length n st, hp.1, hp.2,
    hp.1.imp (fun h => ne_of_lt h), hp.2.imp (fun h => ne_of_lt h),
    fun symbol side qty price tif => ⟨rfl, rfl, rfl⟩,
    fun symbol side qty => ⟨rfl, rfl, rfl⟩⟩
